import Mathlib

/-!
Verification development for the OnTheGo single-page application and its
backend proxy.  The definitions below are shallow embeddings of the
JavaScript source: the view-toggle state machine of src/js/app.js, the
local map marker lifecycle of the MapModule, the trip selector and date
formatting of the App module, the client restaurant fetcher, and the
yelp-search proxy handler with its response cache.
-/

namespace OnTheGo

/-! ## View state machine (App.toggleView, src/js/app.js)

The current view is one of three modes.  In the source the travel-log
mode is the value CONFIG.VIEW_MODE_TRAVEL_LOG (left undefined by the
config, used only as a sentinel); the three-way branch in toggleView
distinguishes exactly these three values, which we model as an enum. -/

inductive View
  | world
  | localList
  | travelLog
deriving DecidableEq, Repr

/-- A DOM snapshot for the elements toggleView touches.  A field is none
when document.getElementById returns null (element absent); otherwise it
holds the current display value (for the view containers) or innerHTML
(for the toggle button). -/
structure Dom where
  worldView : Option String
  localView : Option String
  travelLogView : Option String
  viewToggle : Option String
deriving DecidableEq, Repr

def restaurantListBtnHtml : String :=
  "<i class=\"fas fa-list\"></i><span>Restaurant List</span>"

def worldMapBtnHtml : String :=
  "<i class=\"fas fa-globe\"></i><span>World Map</span>"

/-- Outcome of one toggleView call: whether a TypeError was thrown
(a null element was dereferenced), the value of App.currentView when the
call finished or threw, and the DOM at that point. -/
structure ToggleResult where
  threw : Bool
  view : View
  dom : Dom
deriving DecidableEq, Repr

/-- First statement of toggleView: the travel-log container is hidden,
and this is the single null-guarded element access in the function. -/
def hideTravelLogView (dom : Dom) : Dom :=
  match dom.travelLogView with
  | some _ => { dom with travelLogView := some "none" }
  | none => dom

/-- Shallow embedding of App.toggleView from src/js/app.js lines 65-112.
Each unguarded element access is modelled by a match whose none branch
records the thrown TypeError together with the state reached so far;
the source mutates this.currentView between the element writes, so the
view recorded on a throw depends on where the throw happens. -/
def toggleView (cv : View) (dom0 : Dom) : ToggleResult :=
  let dom := hideTravelLogView dom0
  match cv with
  | .localList =>
    match dom.localView with
    | none => ⟨true, cv, dom⟩
    | some _ =>
      let dom1 := { dom with localView := some "none" }
      match dom1.worldView with
      | none => ⟨true, cv, dom1⟩
      | some _ =>
        let dom2 := { dom1 with worldView := some "flex" }
        match dom2.viewToggle with
        | none => ⟨true, .world, dom2⟩
        | some _ => ⟨false, .world, { dom2 with viewToggle := some restaurantListBtnHtml }⟩
  | .travelLog =>
    match dom.worldView with
    | none => ⟨true, cv, dom⟩
    | some _ =>
      let dom1 := { dom with worldView := some "flex" }
      match dom1.viewToggle with
      | none => ⟨true, .world, dom1⟩
      | some _ => ⟨false, .world, { dom1 with viewToggle := some restaurantListBtnHtml }⟩
  | .world =>
    match dom.worldView with
    | none => ⟨true, cv, dom⟩
    | some _ =>
      let dom1 := { dom with worldView := some "none" }
      match dom1.localView with
      | none => ⟨true, cv, dom1⟩
      | some _ =>
        let dom2 := { dom1 with localView := some "flex" }
        match dom2.viewToggle with
        | none => ⟨true, .localList, dom2⟩
        | some _ => ⟨false, .localList, { dom2 with viewToggle := some worldMapBtnHtml }⟩

end OnTheGo

namespace OnTheGo

/-! ## Dates and the date-range formatter (App.formatDateRange)

The trip data uses ISO calendar-date strings (YYYY-MM-DD).  We model the
JavaScript Date parse for exactly that fragment: a ten-character string
of the shape YYYY-MM-DD with a valid month and day parses to a calendar
date, anything else is an Invalid Date (none), matching how the engine
rejects out-of-range ISO components and how every date string appearing
in this repository behaves.  The process runs with UTC accessors, so
getFullYear, getMonth, getDate return the parsed components. -/

structure YMD where
  year : Nat
  month : Nat
  day : Nat
deriving DecidableEq, Repr

def isLeapYear (y : Nat) : Bool :=
  (y % 4 == 0 && y % 100 != 0) || y % 400 == 0

def daysInMonth (y m : Nat) : Nat :=
  if m = 2 then (if isLeapYear y then 29 else 28)
  else if m = 4 ∨ m = 6 ∨ m = 9 ∨ m = 11 then 30
  else 31

def digitVal (c : Char) : Nat := c.toNat - 48

/-- Parse of an ISO YYYY-MM-DD date string; none models an Invalid
Date. -/
def parseISODate (s : String) : Option YMD :=
  match s.data with
  | [y1, y2, y3, y4, h1, m1, m2, h2, d1, d2] =>
    if y1.isDigit && y2.isDigit && y3.isDigit && y4.isDigit && h1 == '-' &&
        m1.isDigit && m2.isDigit && h2 == '-' && d1.isDigit && d2.isDigit then
      let y := ((digitVal y1 * 10 + digitVal y2) * 10 + digitVal y3) * 10 + digitVal y4
      let m := digitVal m1 * 10 + digitVal m2
      let d := digitVal d1 * 10 + digitVal d2
      if 1 ≤ m && m ≤ 12 && 1 ≤ d && d ≤ daysInMonth y m then
        some ⟨y, m, d⟩
      else none
    else none
  | _ => none

/-- The en-US short month names used by toLocaleString with the short
month option. -/
def monthShortName : Nat → String
  | 1 => "Jan"
  | 2 => "Feb"
  | 3 => "Mar"
  | 4 => "Apr"
  | 5 => "May"
  | 6 => "Jun"
  | 7 => "Jul"
  | 8 => "Aug"
  | 9 => "Sep"
  | 10 => "Oct"
  | 11 => "Nov"
  | 12 => "Dec"
  | _ => ""

/-- Shallow embedding of App.formatDateRange (src/unnamed/part_000 lines
349-374): same month and year collapse to one month and year, same year
keeps one year, different years print both in full; if either date fails
to parse the raw strings are joined verbatim with an en dash. -/
def formatDateRange (startStr endStr : String) : String :=
  match parseISODate startStr, parseISODate endStr with
  | some s, some e =>
    if s.year = e.year ∧ s.month = e.month then
      monthShortName s.month ++ " " ++ toString s.day ++ "–" ++ toString e.day ++
        ", " ++ toString s.year
    else if s.year = e.year then
      monthShortName s.month ++ " " ++ toString s.day ++ " – " ++
        monthShortName e.month ++ " " ++ toString e.day ++ ", " ++ toString s.year
    else
      monthShortName s.month ++ " " ++ toString s.day ++ ", " ++ toString s.year ++
        " – " ++ monthShortName e.month ++ " " ++ toString e.day ++ ", " ++ toString e.year
  | _, _ => startStr ++ " – " ++ endStr

/-! ## Trip selector (App.getNextUpcomingTrip / App.setupLocationControls)

A trip is modelled by the fields the selector reads: its id and its
startDate string, where the empty string models a missing or undefined
startDate (both are falsy, so both are dropped by the filter in
getNextUpcomingTrip).  Dates are compared at day granularity through the
key below, which is strictly monotone in the calendar order, matching
the setHours(0,0,0,0) normalization of the source. -/

structure Trip where
  id : String
  startDate : String
deriving DecidableEq, Repr

/-- Day-granularity sort key of a calendar date; strictly monotone in
the (year, month, day) lexicographic order since month and day have at
most two digits. -/
def dayKey (d : YMD) : Nat := d.year * 10000 + d.month * 100 + d.day

/-- The day key a trip sorts by; an absent or unparseable startDate gets
key 0 (such trips are excluded by the hypotheses of the theorems that
use this, mirroring that the source data always carries parseable ISO
dates). -/
def tripDateKey (t : Trip) : Nat := ((parseISODate t.startDate).map dayKey).getD 0

def dateLe (a b : Trip) : Prop := tripDateKey a ≤ tripDateKey b

def dateGe (a b : Trip) : Prop := tripDateKey b ≤ tripDateKey a

instance : DecidableRel dateLe := fun a b =>
  inferInstanceAs (Decidable (tripDateKey a ≤ tripDateKey b))

instance : DecidableRel dateGe := fun a b =>
  inferInstanceAs (Decidable (tripDateKey b ≤ tripDateKey a))

instance : IsTotal Trip dateLe := ⟨fun a b => Nat.le_total (tripDateKey a) (tripDateKey b)⟩

instance : IsTrans Trip dateLe := ⟨fun _ _ _ h1 h2 => Nat.le_trans h1 h2⟩

instance : IsTotal Trip dateGe := ⟨fun a b => Nat.le_total (tripDateKey b) (tripDateKey a)⟩

instance : IsTrans Trip dateGe := ⟨fun _ _ _ h1 h2 => Nat.le_trans h2 h1⟩

/-- Shallow embedding of App.getNextUpcomingTrip (src/unnamed/part_000
lines 327-340): keep the upcoming trips with a truthy startDate, sort
them ascending by date, return the first one starting today or later,
else the earliest one, else null. -/
def getNextUpcomingTrip (upcomingTrips : List Trip) (todayKey : Nat) : Option Trip :=
  let upcomingSorted :=
    List.insertionSort dateLe (upcomingTrips.filter (fun t => t.startDate != ""))
  match upcomingSorted.find? (fun t => decide (todayKey ≤ tripDateKey t)) with
  | some t => some t
  | none => upcomingSorted.head?

inductive TripKind
  | upcoming
  | past
deriving DecidableEq, Repr

/-- Shallow embedding of the default-selection logic in
App.setupLocationControls (src/unnamed/part_000 lines 274-284): take the
next upcoming trip if there is one; otherwise, if the past list is
nonempty, take the past trip with the most recent startDate (sort
descending and take the head). -/
def defaultTripSelection (upcomingTrips pastTrips : List Trip) (todayKey : Nat) :
    Option (TripKind × Trip) :=
  match getNextUpcomingTrip upcomingTrips todayKey with
  | some t => some (.upcoming, t)
  | none =>
    if pastTrips.length > 0 then
      (List.insertionSort dateGe pastTrips).head?.map (fun t => (TripKind.past, t))
    else none

/-! ## Local map marker lifecycle (MapModule, src/unnamed/part_002 and
src/js/map.js)

Coordinates are modelled as rationals (every coordinate literal in the
source is a finite decimal).  A marker is its coordinate plus the id or
popup label it is bound to; icons and popup HTML are rendering detail
the claims do not touch.  Bounds and their pad operation follow the
Leaflet semantics used by fitBounds: the bounding box of a feature
group is the min/max over member coordinates, and pad extends each side
by the buffer ratio times the box height or width. -/

structure Restaurant where
  id : String
  name : String
  lat : Rat
  lng : Rat
  rating : Rat
  price : String
  distance : Int
deriving DecidableEq, Repr

structure Marker where
  lat : Rat
  lng : Rat
  tag : String
deriving DecidableEq, Repr

structure Bounds where
  swLat : Rat
  swLng : Rat
  neLat : Rat
  neLng : Rat
deriving DecidableEq, Repr

def Bounds.containsPt (b : Bounds) (lat lng : Rat) : Prop :=
  b.swLat ≤ lat ∧ lat ≤ b.neLat ∧ b.swLng ≤ lng ∧ lng ≤ b.neLng

def boundsExtend (b : Bounds) (lat lng : Rat) : Bounds :=
  ⟨min b.swLat lat, min b.swLng lng, max b.neLat lat, max b.neLng lng⟩

/-- The bounds of a Leaflet feature group: the min/max box over the
member coordinates (the empty case never reaches fitBounds in the
source, which guards on a positive marker count). -/
def boundsOfMarkers : List Marker → Bounds
  | [] => ⟨0, 0, 0, 0⟩
  | m :: ms => ms.foldl (fun b x => boundsExtend b x.lat x.lng) ⟨m.lat, m.lng, m.lat, m.lng⟩

/-- LatLngBounds.pad: extend each side by bufferRatio times the box
height (for latitudes) or width (for longitudes). -/
def Bounds.pad (b : Bounds) (ratio : Rat) : Bounds :=
  ⟨b.swLat - |b.neLat - b.swLat| * ratio,
   b.swLng - |b.neLng - b.swLng| * ratio,
   b.neLat + |b.neLat - b.swLat| * ratio,
   b.neLng + |b.neLng - b.swLng| * ratio⟩

/-- The MapModule state the claims touch: whether init created a map
(Leaflet available), the result-marker list, the search-center pin, the
remembered search location, the map center, and the bounds passed to the
last fitBounds call. -/
structure MapState where
  mapInit : Bool
  markers : List Marker
  userMarker : Option Marker
  userLocation : Option (Rat × Rat)
  center : Option (Rat × Rat)
  fittedBounds : Option Bounds
deriving DecidableEq, Repr

def createRestaurantMarker (r : Restaurant) : Marker := ⟨r.lat, r.lng, r.id⟩

/-- MapModule.clearMarkers: remove every result marker from the map. -/
def clearMarkers (st : MapState) : MapState := { st with markers := [] }

/-- Shallow embedding of MapModule.addRestaurantMarkers
(src/unnamed/part_002 lines 337-356): no-op when the map is absent;
otherwise clear all result markers, add one marker per restaurant, and
when at least one marker exists fit the bounds of the markers plus the
search-center pin (when present) with a 0.1 pad. -/
def addRestaurantMarkers (st : MapState) (restaurants : List Restaurant) : MapState :=
  if !st.mapInit then st
  else
    let st1 := clearMarkers st
    let st2 := { st1 with markers := st1.markers ++ restaurants.map createRestaurantMarker }
    if st2.markers.length > 0 then
      let layers := st2.markers ++ (match st2.userMarker with
        | some m => [m]
        | none => [])
      if layers.length > 0 then
        { st2 with fittedBounds := some ((boundsOfMarkers layers).pad (1/10)) }
      else st2
    else st2

def DEFAULT_LAT : Rat := 37.7749

def DEFAULT_LNG : Rat := -122.4194

/-- Console output and App.onLocationReady invocations produced by a
MapModule operation. -/
structure MapEffects where
  logs : List String
  locationReadyCalls : List (Rat × Rat)
deriving DecidableEq, Repr

/-- MapModule.addUserMarker: place the search-center pin (no-op when the
map is absent). -/
def addUserMarker (st : MapState) (lat lng : Rat) (label : String) : MapState :=
  if !st.mapInit then st
  else { st with userMarker := some ⟨lat, lng, label⟩ }

/-- Shallow embedding of MapModule.setSearchCenter
(src/unnamed/part_002 lines 213-238).  The finiteness validation of the
source always passes here because rationals model only finite numbers.
The existing pin is removed and replaced through addUserMarker, and the
orchestrator is asked to load restaurants for the new center. -/
def setSearchCenter (st : MapState) (lat lng : Rat) (label : String) :
    MapState × MapEffects :=
  let st1 := { st with userLocation := some (lat, lng) }
  let st2 := if st1.mapInit then { st1 with center := some (lat, lng) } else st1
  let st3 := addUserMarker st2 lat lng label
  (st3, ⟨[], [(lat, lng)]⟩)

inductive GeoErrCode
  | permissionDenied
  | positionUnavailable
  | locTimeout
  | other
deriving DecidableEq, Repr

/-- The messages built by MapModule.handleGeolocationError. -/
def geoErrMessage : GeoErrCode → String
  | .permissionDenied =>
    "Unable to get your location. Location permission denied. Using default location (San Francisco)."
  | .positionUnavailable =>
    "Unable to get your location. Location information unavailable. Using default location."
  | .locTimeout =>
    "Unable to get your location. Location request timed out. Using default location."
  | .other =>
    "Unable to get your location. Using default location."

/-- How the platform geolocation request resolves: a position, an error
callback with one of the error codes, or the API being absent from the
navigator. -/
inductive GeoOutcome
  | success (lat lng : Rat)
  | failure (code : GeoErrCode)
  | unsupported
deriving DecidableEq, Repr

/-- Shallow embedding of MapModule.requestUserLocation /
getUserLocation (src/unnamed/part_002 lines 244-273): on success the
position becomes the search center labeled My Location; on an error
callback the error and a descriptive message are logged and nothing else
happens (the current search center is kept); when geolocation is
unsupported, the default coordinate is forwarded only when no search
center exists yet. -/
def requestUserLocation (st : MapState) (outcome : GeoOutcome) : MapState × MapEffects :=
  match outcome with
  | .success lat lng => setSearchCenter st lat lng "My Location"
  | .failure code => (st, ⟨["Geolocation error:", geoErrMessage code], []⟩)
  | .unsupported =>
    if st.userLocation = none then
      (st, ⟨["Geolocation not supported"], [(DEFAULT_LAT, DEFAULT_LNG)]⟩)
    else
      (st, ⟨["Geolocation not supported"], []⟩)

/-! ## Client restaurant fetcher (API, src/unnamed/part_006) -/

/-- Math.round: round half toward positive infinity. -/
def jsRound (q : Rat) : Int := (q + 1/2).floor

/-- Shallow embedding of API.getMockRestaurants (src/unnamed/part_006
lines 54-72): the mock table with each distance recomputed from the
given coordinate through the distance function and rounded.  The source
computes the distance with its Haversine calculateDistance; that
floating-point trigonometry is abstracted as the dist argument, every
theorem below holds for any distance function. -/
def getMockRestaurants (dist : Rat → Rat → Rat → Rat → Rat)
    (mockTable : List Restaurant) (lat lng : Rat) : List Restaurant :=
  mockTable.map fun r => { r with distance := jsRound (dist lat lng r.lat r.lng) }

/-- How the proxy round-trip inside the try block of fetchRestaurants
resolves: an ok response carrying an optional businesses array, a non-ok
status, or a thrown network/parse failure. -/
inductive UpstreamResult
  | httpOk (businesses : Option (List Restaurant))
  | httpError (status : Nat)
  | networkError
deriving DecidableEq, Repr

/-- The try block of API.fetchRestaurants: a non-ok response throws a
Yelp API error, a network failure rejects, an ok response resolves with
its businesses array or an empty list. -/
def fetchFromProxy (up : UpstreamResult) : Except String (List Restaurant) :=
  match up with
  | .httpOk businesses => .ok (businesses.getD [])
  | .httpError status => .error ("Yelp API error: " ++ toString status)
  | .networkError => .error "fetch failed"

/-- Shallow embedding of API.fetchRestaurants (src/unnamed/part_006
lines 9-46): when the proxy URL is unset (undefined or empty, both
modelled by the empty string) the mock data is returned directly;
otherwise every error of the try block is caught and replaced by the
mock data.  The Except result type makes rejection representable so
that its impossibility is a theorem rather than a modelling artifact. -/
def fetchRestaurants (yelpApiUrl : String) (dist : Rat → Rat → Rat → Rat → Rat)
    (mockTable : List Restaurant) (lat lng : Rat) (up : UpstreamResult) :
    Except String (List Restaurant) :=
  if yelpApiUrl = "" then .ok (getMockRestaurants dist mockTable lat lng)
  else
    match fetchFromProxy up with
    | .ok restaurants => .ok restaurants
    | .error _ => .ok (getMockRestaurants dist mockTable lat lng)

/-! ## Yelp search proxy (src/server.js lines 27-128)

Request-body fields are JSON scalars (the clients only ever send numbers
and strings; object and array fields do not occur in these requests), so
a field value is modelled as a JSON scalar or undef for an absent field.
Number is modelled exactly on numeric literals, null and booleans; on
strings it is modelled for plain decimal notation (optional sign, digits,
one optional fraction part), with none standing for NaN.  Rationals only
represent finite numbers, so Number.isFinite holds exactly of some. -/

inductive JsValue
  | undef
  | null
  | num (q : Rat)
  | str (s : String)
  | boolean (b : Bool)
deriving DecidableEq, Repr

/-- JavaScript truthiness of the modelled values. -/
def JsValue.truthy : JsValue → Bool
  | .undef => false
  | .null => false
  | .num q => q != 0
  | .str s => s != ""
  | .boolean b => b

def parseDigitsAux : List Char → Nat → Option Nat
  | [], acc => some acc
  | c :: cs, acc => if c.isDigit then parseDigitsAux cs (acc * 10 + digitVal c) else none

def digitsToNat (cs : List Char) : Option Nat := parseDigitsAux cs 0

/-- Split a character list at the first dot. -/
def splitAtDot : List Char → List Char × Option (List Char)
  | [] => ([], none)
  | c :: rest =>
    if c = '.' then ([], some rest)
    else
      let p := splitAtDot rest
      (c :: p.1, p.2)

/-- Number(string) for plain decimal notation; the empty string converts
to 0, a malformed string to NaN (none). -/
def parseJsNumber (s : String) : Option Rat :=
  match s.data with
  | [] => some 0
  | cs =>
    let signAndRest : Bool × List Char :=
      match cs with
      | '-' :: rest => (true, rest)
      | '+' :: rest => (false, rest)
      | _ => (false, cs)
    let p := splitAtDot signAndRest.2
    match p.2 with
    | none =>
      if p.1 = [] then none
      else (digitsToNat p.1).map fun n =>
        if signAndRest.1 then -(n : Rat) else (n : Rat)
    | some fracDigits =>
      if p.1 = [] ∧ fracDigits = [] then none
      else
        match digitsToNat p.1, digitsToNat fracDigits with
        | some n, some f =>
          let v : Rat := (n : Rat) + (f : Rat) / ((10 : Rat) ^ fracDigits.length)
          some (if signAndRest.1 then -v else v)
        | _, _ => none

/-- Number() conversion of the modelled values; none models NaN. -/
def JsValue.toNumber : JsValue → Option Rat
  | .undef => none
  | .null => some 0
  | .num q => some q
  | .str s => parseJsNumber s
  | .boolean b => some (if b then 1 else 0)

/-- The destructured request body of the yelp-search handler; an absent
field destructures to undef. -/
structure YelpRequestBody where
  latitude : JsValue
  longitude : JsValue
  radius : JsValue
  limit : JsValue
  categories : JsValue
  sortBy : JsValue
deriving DecidableEq, Repr

def DEFAULT_SEARCH_RADIUS : Rat := 8047

def DEFAULT_SEARCH_LIMIT : Rat := 20

/-- The validated query parameters the handler forwards upstream (the
URLSearchParams stringification is rendering detail). -/
structure YelpParams where
  latitudeValue : Rat
  longitudeValue : Rat
  radiusValue : Rat
  limitValue : Rat
  categories : JsValue
  sortBy : JsValue
deriving DecidableEq, Repr

/-- The radius guard of the handler: NaN, nonpositive, or above 40000
meters. -/
def radiusInvalid (v : Option Rat) : Bool :=
  match v with
  | none => true
  | some q => decide (q ≤ 0) || decide (q > 40000)

/-- The limit guard of the handler: NaN or nonpositive. -/
def limitInvalid (v : Option Rat) : Bool :=
  match v with
  | none => true
  | some q => decide (q ≤ 0)

/-- Shallow embedding of the validation phase of the yelp-search handler
(src/server.js lines 62-98): truthiness test for required coordinates,
finiteness of their Number conversion, a range check for a supplied
radius, a positivity check for a supplied limit, and defaulting of the
optional fields. -/
def yelpValidate (body : YelpRequestBody) : Except (Nat × String) YelpParams :=
  if !(body.latitude.truthy && body.longitude.truthy) then
    .error (400, "latitude and longitude are required")
  else
    match body.latitude.toNumber, body.longitude.toNumber with
    | some latitudeValue, some longitudeValue =>
      let hasRadius := body.radius != JsValue.undef
      let hasLimit := body.limit != JsValue.undef
      if hasRadius && radiusInvalid body.radius.toNumber then
        .error (400, "radius must be a number between 1 and 40000")
      else if hasLimit && limitInvalid body.limit.toNumber then
        .error (400, "limit must be a positive number")
      else
        .ok { latitudeValue := latitudeValue
              longitudeValue := longitudeValue
              radiusValue :=
                if hasRadius then body.radius.toNumber.getD DEFAULT_SEARCH_RADIUS
                else DEFAULT_SEARCH_RADIUS
              limitValue :=
                if hasLimit then body.limit.toNumber.getD DEFAULT_SEARCH_LIMIT
                else DEFAULT_SEARCH_LIMIT
              categories :=
                if body.categories.truthy then body.categories
                else .str "restaurants,bars,breweries,nightlife"
              sortBy :=
                if body.sortBy.truthy then body.sortBy
                else .str "rating" }
    | _, _ => .error (400, "latitude and longitude must be valid numbers")

structure CacheEntry where
  expiresAt : Int
  data : JsValue
deriving DecidableEq, Repr

/-- The in-memory response cache, keyed by the forwarded parameters
(buildCacheKey stringifies exactly these). -/
def Cache := List (YelpParams × CacheEntry)

instance : DecidableEq Cache := inferInstanceAs (DecidableEq (List _))

def cacheLookup : Cache → YelpParams → Option CacheEntry
  | [], _ => none
  | (k2, e) :: rest, k => if k2 = k then some e else cacheLookup rest k

def cacheErase : Cache → YelpParams → Cache
  | [], _ => []
  | (k2, e) :: rest, k =>
    if k2 = k then cacheErase rest k else (k2, e) :: cacheErase rest k

/-- Map.set: bind the key to the entry, replacing any previous
binding. -/
def cacheSet (c : Cache) (k : YelpParams) (e : CacheEntry) : Cache :=
  (k, e) :: cacheErase c k

/-- Shallow embedding of getCachedResponse (src/server.js lines 31-43):
a missing key misses; an entry whose expiry is strictly in the past is
deleted and misses; otherwise the stored data is served. -/
def getCachedResponse (c : Cache) (now : Int) (k : YelpParams) :
    Option JsValue × Cache :=
  match cacheLookup c k with
  | none => (none, c)
  | some e => if e.expiresAt < now then (none, cacheErase c k) else (some e.data, c)

/-- Shallow embedding of setCachedResponse (src/server.js lines 45-50). -/
def setCachedResponse (c : Cache) (now ttl : Int) (k : YelpParams) (data : JsValue) :
    Cache :=
  cacheSet c k ⟨now + ttl, data⟩

/-- How the upstream Yelp call of the handler resolves. -/
inductive YelpUpstream
  | ok (data : JsValue)
  | httpError (status : Nat)
  | networkError
deriving DecidableEq, Repr

/-- A handler response: an error status with its message, or a JSON
payload. -/
inductive YelpResp
  | err (status : Nat) (msg : String)
  | payload (data : JsValue)
deriving DecidableEq, Repr

/-- The response the handler produces when it reaches the upstream
call. -/
def upstreamToResp : YelpUpstream → YelpResp
  | .ok data => .payload data
  | .httpError status => .err status "Yelp API error"
  | .networkError => .err 500 "Failed to contact Yelp API"

/-- Shallow embedding of the yelp-search endpoint (src/server.js lines
55-128): missing API key short-circuits with 500, validation errors with
400, a fresh truthy cached value is served as-is, and otherwise the
upstream outcome decides the response, with only a successful response
body being stored in the cache. -/
def yelpSearchHandler (apiKeyConfigured : Bool) (ttl : Int) (c : Cache) (now : Int)
    (body : YelpRequestBody) (up : YelpUpstream) : YelpResp × Cache :=
  if !apiKeyConfigured then
    (.err 500 "Yelp API key not configured. Please set YELP_API_KEY in your .env file.", c)
  else
    match yelpValidate body with
    | .error (status, msg) => (.err status msg, c)
    | .ok params =>
      let looked := getCachedResponse c now params
      let proceed : YelpResp × Cache :=
        match up with
        | .ok data => (.payload data, setCachedResponse looked.2 now ttl params data)
        | .httpError status => (.err status "Yelp API error", looked.2)
        | .networkError => (.err 500 "Failed to contact Yelp API", looked.2)
      match looked.1 with
      | some data => if data.truthy then (.payload data, looked.2) else proceed
      | none => proceed

/-- C1: toggleView invoked with current view TRAVEL_LOG always yields
WORLD and never LOCAL.  The first conjunct covers every DOM snapshot,
including ones where a missing element makes the call throw: the view
recorded at the end is never LOCAL.  The second conjunct shows that with
the world container and toggle button present the call completes
normally and lands on WORLD.  toggleView reads only the current view, so
the result does not depend on which state preceded TRAVEL_LOG. -/
theorem toggleView_from_travelLog_lands_world :
    (∀ dom : Dom, (toggleView .travelLog dom).view ≠ View.localList) ∧
    (∀ dom : Dom, dom.worldView.isSome → dom.viewToggle.isSome →
      (toggleView .travelLog dom).threw = false ∧
      (toggleView .travelLog dom).view = View.world) := by
  constructor
  · intro dom
    rcases dom with ⟨w, l, t, b⟩
    cases w <;> cases t <;> cases b <;>
      simp [toggleView, hideTravelLogView]
  · intro dom hw hb
    rcases dom with ⟨w, l, t, b⟩
    cases w with
    | none => simp at hw
    | some _ =>
      cases b with
      | none =>
        cases t <;> simp [toggleView, hideTravelLogView] at hb ⊢
      | some _ =>
        cases t <;> simp [toggleView, hideTravelLogView]

/-- Witness for C1: a concrete DOM with all elements present, toggled
from the travel log, finishes without throwing and lands on WORLD. -/
theorem toggleView_from_travelLog_lands_world_witness :
    (toggleView .travelLog
      ⟨some "none", some "none", some "flex", some ""⟩).threw = false ∧
    (toggleView .travelLog
      ⟨some "none", some "none", some "flex", some ""⟩).view = View.world := by
  exact (toggleView_from_travelLog_lands_world.2
    ⟨some "none", some "none", some "flex", some ""⟩ rfl rfl)

/-- C8 counterexample: toggleView is not a no-op when a required DOM
container is absent.  With the world container missing and the current
view TRAVEL_LOG, the call dereferences null and throws, contradicting
the claim that it does not throw. -/
theorem toggleView_missing_container_throws :
    (toggleView .travelLog ⟨none, some "none", some "flex", some ""⟩).threw = true := by
  decide

/-- C8 amended: toggleView null-checks only the travel-log container
(an absent travel-log container is skipped and the call proceeds); an
absent world container, local container, or toggle button needed by the
active branch makes the call throw.  When the throw happens at a missing
view container the current view is unchanged; when only the toggle
button is missing, the view has already been updated to the target view
before the throw. -/
theorem toggleView_missing_container_behavior :
    (∀ cv : View, ∀ w l b : String,
      (toggleView cv ⟨some w, some l, none, some b⟩).threw = false) ∧
    (∀ dom : Dom, dom.worldView = none →
      (toggleView .travelLog dom).threw = true ∧
      (toggleView .travelLog dom).view = View.travelLog) ∧
    (∀ dom : Dom, (dom.localView = none ∨ dom.worldView = none) →
      (toggleView .localList dom).threw = true ∧
      (toggleView .localList dom).view = View.localList) ∧
    (∀ dom : Dom, (dom.worldView = none ∨ dom.localView = none) →
      (toggleView .world dom).threw = true ∧
      (toggleView .world dom).view = View.world) ∧
    (∀ dom : Dom, dom.worldView.isSome → dom.localView.isSome →
      dom.viewToggle = none →
      (toggleView .travelLog dom).threw = true ∧
      (toggleView .travelLog dom).view = View.world ∧
      (toggleView .localList dom).threw = true ∧
      (toggleView .localList dom).view = View.world ∧
      (toggleView .world dom).threw = true ∧
      (toggleView .world dom).view = View.localList) := by
  refine ⟨?_, ?_, ?_, ?_, ?_⟩
  · intro cv w l b
    cases cv <;> rfl
  · rintro ⟨w, l, t, b⟩ hw
    cases hw
    cases t <;> simp [toggleView, hideTravelLogView]
  · rintro ⟨w, l, t, b⟩ (h | h) <;> cases h <;>
      first
      | (cases t <;> cases w <;> simp [toggleView, hideTravelLogView])
      | (cases t <;> cases l <;> simp [toggleView, hideTravelLogView])
  · rintro ⟨w, l, t, b⟩ (h | h) <;> cases h <;>
      first
      | (cases t <;> cases l <;> simp [toggleView, hideTravelLogView])
      | (cases t <;> cases w <;> simp [toggleView, hideTravelLogView])
  · rintro ⟨w, l, t, b⟩ hw hl hb
    cases hb
    cases w with
    | none => simp at hw
    | some _ =>
      cases l with
      | none => simp at hl
      | some _ => cases t <;> simp [toggleView, hideTravelLogView]

/-- C4: the date-range formatter realizes the four documented shapes:
same year and month collapse to one month label and one year, same year
with different months keeps one year, different years print both dates
in full, and unparseable input falls back to the raw strings joined with
an en dash; the four example inputs of the spec evaluate to exactly the
four listed outputs. -/
theorem formatDateRange_spec :
    (∀ s1 s2 : String, (parseISODate s1).isNone ∨ (parseISODate s2).isNone →
      formatDateRange s1 s2 = s1 ++ " – " ++ s2) ∧
    (∀ s1 s2 : String, ∀ d1 d2 : YMD,
      parseISODate s1 = some d1 → parseISODate s2 = some d2 →
      (d1.year = d2.year → d1.month = d2.month →
        formatDateRange s1 s2 =
          monthShortName d1.month ++ " " ++ toString d1.day ++ "–" ++
            toString d2.day ++ ", " ++ toString d1.year) ∧
      (d1.year = d2.year → d1.month ≠ d2.month →
        formatDateRange s1 s2 =
          monthShortName d1.month ++ " " ++ toString d1.day ++ " – " ++
            monthShortName d2.month ++ " " ++ toString d2.day ++ ", " ++ toString d1.year) ∧
      (d1.year ≠ d2.year →
        formatDateRange s1 s2 =
          monthShortName d1.month ++ " " ++ toString d1.day ++ ", " ++ toString d1.year ++
            " – " ++ monthShortName d2.month ++ " " ++ toString d2.day ++ ", " ++
            toString d2.year)) ∧
    formatDateRange "2026-03-15" "2026-03-19" = "Mar 15–19, 2026" ∧
    formatDateRange "2026-03-30" "2026-04-02" = "Mar 30 – Apr 2, 2026" ∧
    formatDateRange "2026-12-30" "2027-01-02" = "Dec 30, 2026 – Jan 2, 2027" ∧
    formatDateRange "not-a-date" "2026-01-01" = "not-a-date – 2026-01-01" := by
  refine ⟨?_, ?_, by decide, by decide, by decide, by decide⟩
  · intro s1 s2 h
    cases hp : parseISODate s1 <;> cases hq : parseISODate s2
    · simp [formatDateRange, hp, hq]
    · simp [formatDateRange, hp, hq]
    · simp [formatDateRange, hp, hq]
    · simp [hp, hq] at h
  · intro s1 s2 d1 d2 h1 h2
    refine ⟨?_, ?_, ?_⟩
    · intro hy hm
      simp [formatDateRange, h1, h2, hy, hm]
    · intro hy hm
      simp [formatDateRange, h1, h2, hy, hm]
    · intro hy
      simp [formatDateRange, h1, h2, hy]

/-- Witness for C4: the universally quantified conjuncts applied at
concrete inputs, the fallback one at the example pair of the spec and
the same-year same-month one at the first example pair. -/
theorem formatDateRange_spec_witness :
    formatDateRange "not-a-date" "2026-01-01" = "not-a-date – 2026-01-01" ∧
    formatDateRange "2026-03-15" "2026-03-19" =
      monthShortName 3 ++ " " ++ toString 15 ++ "–" ++ toString 19 ++ ", " ++ toString 2026 := by
  constructor
  · exact formatDateRange_spec.1 "not-a-date" "2026-01-01" (Or.inl (by decide))
  · exact (formatDateRange_spec.2.1 "2026-03-15" "2026-03-19" ⟨2026, 3, 15⟩ ⟨2026, 3, 19⟩
      (by decide) (by decide)).1 rfl rfl

/-- In a list sorted ascending by trip date, a successful find? returns
an element whose date key is minimal among the elements satisfying the
predicate. -/
theorem find_min_of_sorted :
    ∀ {l : List Trip}, l.Sorted dateLe →
    ∀ {p : Trip → Bool} {t : Trip}, l.find? p = some t →
    ∀ u ∈ l, p u = true → tripDateKey t ≤ tripDateKey u := by
  intro l
  induction l with
  | nil => intro _ p t h; simp at h
  | cons a l ih =>
    intro hs p t h
    rw [List.sorted_cons] at hs
    by_cases hpa : p a = true
    · rw [List.find?_cons_of_pos _ hpa] at h
      cases h
      intro u hu _
      rcases List.mem_cons.mp hu with rfl | hu
      · exact Nat.le_refl _
      · exact hs.1 u hu
    · rw [List.find?_cons_of_neg _ hpa] at h
      intro u hu hpu
      rcases List.mem_cons.mp hu with rfl | hu
      · exact absurd hpu hpa
      · exact ih hs.2 h u hu hpu

/-- The head of a list sorted ascending by trip date has minimal date
key. -/
theorem head_min_of_sorted {l : List Trip} (hs : l.Sorted dateLe)
    {t : Trip} (h : l.head? = some t) :
    ∀ u ∈ l, tripDateKey t ≤ tripDateKey u := by
  cases l with
  | nil => simp at h
  | cons a l =>
    rw [List.head?_cons] at h
    injection h with h
    subst h
    rw [List.sorted_cons] at hs
    intro u hu
    rcases List.mem_cons.mp hu with rfl | hu
    · exact Nat.le_refl _
    · exact hs.1 u hu

/-- The head of a list sorted descending by trip date has maximal date
key. -/
theorem head_max_of_sorted {l : List Trip} (hs : l.Sorted dateGe)
    {t : Trip} (h : l.head? = some t) :
    ∀ u ∈ l, tripDateKey u ≤ tripDateKey t := by
  cases l with
  | nil => simp at h
  | cons a l =>
    rw [List.head?_cons] at h
    injection h with h
    subst h
    rw [List.sorted_cons] at hs
    intro u hu
    rcases List.mem_cons.mp hu with rfl | hu
    · exact Nat.le_refl _
    · exact hs.1 u hu

/-- C3: the default trip selection picks, among upcoming trips with a
defined start date, the one with the earliest start date that is
today-or-later at day granularity; when none qualifies it falls back to
the earliest-dated upcoming trip; when there are no upcoming trips it
falls back to the most recently started past trip; and when both lists
are empty no default is produced.  Dates are modelled at day granularity
through tripDateKey. -/
theorem defaultTripSelection_spec (upcomingTrips pastTrips : List Trip) (todayKey : Nat) :
    ((∃ t ∈ upcomingTrips, t.startDate ≠ "" ∧ todayKey ≤ tripDateKey t) →
      ∃ t, defaultTripSelection upcomingTrips pastTrips todayKey = some (.upcoming, t) ∧
        t ∈ upcomingTrips ∧ t.startDate ≠ "" ∧ todayKey ≤ tripDateKey t ∧
        ∀ u ∈ upcomingTrips, u.startDate ≠ "" → todayKey ≤ tripDateKey u →
          tripDateKey t ≤ tripDateKey u) ∧
    ((¬ ∃ t ∈ upcomingTrips, t.startDate ≠ "" ∧ todayKey ≤ tripDateKey t) →
      (∃ t ∈ upcomingTrips, t.startDate ≠ "") →
      ∃ t, defaultTripSelection upcomingTrips pastTrips todayKey = some (.upcoming, t) ∧
        t ∈ upcomingTrips ∧ t.startDate ≠ "" ∧
        ∀ u ∈ upcomingTrips, u.startDate ≠ "" → tripDateKey t ≤ tripDateKey u) ∧
    (upcomingTrips = [] → pastTrips ≠ [] →
      ∃ t, defaultTripSelection upcomingTrips pastTrips todayKey = some (.past, t) ∧
        t ∈ pastTrips ∧ ∀ u ∈ pastTrips, tripDateKey u ≤ tripDateKey t) ∧
    (upcomingTrips = [] → pastTrips = [] →
      defaultTripSelection upcomingTrips pastTrips todayKey = none) := by
  have hperm := List.perm_insertionSort dateLe
    (upcomingTrips.filter (fun t => t.startDate != ""))
  have hsorted := List.sorted_insertionSort dateLe
    (upcomingTrips.filter (fun t => t.startDate != ""))
  set dated := upcomingTrips.filter (fun t => t.startDate != "") with hdated
  set sortedUp := List.insertionSort dateLe dated with hsortedUp
  have hmem_dated : ∀ t : Trip, t ∈ dated ↔ t ∈ upcomingTrips ∧ t.startDate ≠ "" := by
    intro t
    rw [hdated, List.mem_filter]
    simp
  have hmem_sorted : ∀ t : Trip, t ∈ sortedUp ↔ t ∈ upcomingTrips ∧ t.startDate ≠ "" := by
    intro t
    rw [hperm.mem_iff, hmem_dated]
  refine ⟨?_, ?_, ?_, ?_⟩
  · rintro ⟨t0, ht0mem, ht0date, ht0key⟩
    have ht0sorted : t0 ∈ sortedUp := (hmem_sorted t0).mpr ⟨ht0mem, ht0date⟩
    have hex : ∃ t, t ∈ sortedUp ∧ decide (todayKey ≤ tripDateKey t) = true :=
      ⟨t0, ht0sorted, decide_eq_true ht0key⟩
    have hsome : (sortedUp.find? (fun t => decide (todayKey ≤ tripDateKey t))).isSome := by
      rw [List.find?_isSome]
      simpa using hex
    obtain ⟨t, hfind⟩ := Option.isSome_iff_exists.mp hsome
    refine ⟨t, ?_, ?_, ?_, ?_, ?_⟩
    · simp only [defaultTripSelection, getNextUpcomingTrip, ← hsortedUp, hfind]
    · exact ((hmem_sorted t).mp (List.mem_of_find?_eq_some hfind)).1
    · exact ((hmem_sorted t).mp (List.mem_of_find?_eq_some hfind)).2
    · have hp := List.find?_some hfind
      exact of_decide_eq_true hp
    · intro u humem hudate hukey
      exact find_min_of_sorted hsorted hfind u ((hmem_sorted u).mpr ⟨humem, hudate⟩)
        (decide_eq_true hukey)
  · rintro hnone ⟨t0, ht0mem, ht0date⟩
    have hfindnone : sortedUp.find? (fun t => decide (todayKey ≤ tripDateKey t)) = none := by
      rw [List.find?_eq_none]
      intro x hx
      simp only [decide_eq_true_eq]
      intro hxkey
      exact hnone ⟨x, ((hmem_sorted x).mp hx).1, ((hmem_sorted x).mp hx).2, hxkey⟩
    have hne : sortedUp ≠ [] := by
      intro hnil
      have := (hmem_sorted t0).mpr ⟨ht0mem, ht0date⟩
      rw [hnil] at this
      exact List.not_mem_nil t0 this
    obtain ⟨t, l, hcons⟩ := List.exists_cons_of_ne_nil hne
    have hmem_t : t ∈ sortedUp := by
      rw [hcons]
      exact List.mem_cons_self t l
    have hhead : sortedUp.head? = some t := by
      rw [hcons, List.head?_cons]
    refine ⟨t, ?_, ?_, ?_, ?_⟩
    · simp only [defaultTripSelection, getNextUpcomingTrip, ← hsortedUp, hfindnone, hhead]
    · exact ((hmem_sorted t).mp hmem_t).1
    · exact ((hmem_sorted t).mp hmem_t).2
    · intro u humem hudate
      exact head_min_of_sorted hsorted hhead u
        ((hmem_sorted u).mpr ⟨humem, hudate⟩)
  · intro hupnil hpastne
    have hpermPast := List.perm_insertionSort dateGe pastTrips
    have hsortedPast := List.sorted_insertionSort dateGe pastTrips
    have hne : List.insertionSort dateGe pastTrips ≠ [] := by
      intro hnil
      apply hpastne
      have := hpermPast.length_eq
      rw [hnil] at this
      exact List.length_eq_zero.mp this.symm
    obtain ⟨t, l, hcons⟩ := List.exists_cons_of_ne_nil hne
    have hhead : (List.insertionSort dateGe pastTrips).head? = some t := by
      rw [hcons, List.head?_cons]
    refine ⟨t, ?_, ?_, ?_⟩
    · subst hupnil
      have hlen : pastTrips.length > 0 := by
        cases pastTrips with
        | nil => exact absurd rfl hpastne
        | cons a l => simp
      simp only [defaultTripSelection, getNextUpcomingTrip, List.filter_nil,
        List.insertionSort, List.find?_nil, List.head?_nil, if_pos hlen, hhead,
        Option.map_some']
    · apply hpermPast.mem_iff.mp
      rw [hcons]
      exact List.mem_cons_self t l
    · intro u humem
      exact head_max_of_sorted hsortedPast hhead u (hpermPast.mem_iff.mpr humem)
  · intro hupnil hpastnil
    subst hupnil
    subst hpastnil
    simp [defaultTripSelection, getNextUpcomingTrip]

/-- Witness for C3 at the example of the spec: upcoming trips dated
2026-03-15 and 2026-04-10 with today 2026-02-01 select the 2026-03-15
trip (its key is minimal among the today-or-later upcoming trips). -/
theorem defaultTripSelection_spec_witness :
    ∃ t, defaultTripSelection
        [Trip.mk "trip-004" "2026-03-15", Trip.mk "trip-005" "2026-04-10"]
        [Trip.mk "trip-001" "2024-11-12"] 20260201 = some (.upcoming, t) ∧
      t ∈ [Trip.mk "trip-004" "2026-03-15", Trip.mk "trip-005" "2026-04-10"] ∧
      t.startDate ≠ "" ∧ 20260201 ≤ tripDateKey t ∧
      ∀ u ∈ [Trip.mk "trip-004" "2026-03-15", Trip.mk "trip-005" "2026-04-10"],
        u.startDate ≠ "" → 20260201 ≤ tripDateKey u → tripDateKey t ≤ tripDateKey u := by
  exact (defaultTripSelection_spec _ _ _).1
    ⟨Trip.mk "trip-004" "2026-03-15", by decide, by decide, by decide⟩

/-- Folding boundsExtend only widens a bounding box. -/
theorem foldl_boundsExtend_widens (ms : List Marker) :
    ∀ b0 : Bounds,
      (ms.foldl (fun b x => boundsExtend b x.lat x.lng) b0).swLat ≤ b0.swLat ∧
      b0.neLat ≤ (ms.foldl (fun b x => boundsExtend b x.lat x.lng) b0).neLat ∧
      (ms.foldl (fun b x => boundsExtend b x.lat x.lng) b0).swLng ≤ b0.swLng ∧
      b0.neLng ≤ (ms.foldl (fun b x => boundsExtend b x.lat x.lng) b0).neLng := by
  induction ms with
  | nil => intro b0; simp
  | cons m ms ih =>
    intro b0
    simp only [List.foldl_cons]
    have h := ih (boundsExtend b0 m.lat m.lng)
    refine ⟨le_trans h.1 (min_le_left _ _), le_trans (le_max_left _ _) h.2.1,
      le_trans h.2.2.1 (min_le_left _ _), le_trans (le_max_left _ _) h.2.2.2⟩

/-- Every marker folded into a bounding box ends up inside it. -/
theorem mem_foldl_boundsExtend (ms : List Marker) :
    ∀ b0 : Bounds, ∀ m ∈ ms,
      (ms.foldl (fun b x => boundsExtend b x.lat x.lng) b0).containsPt m.lat m.lng := by
  induction ms with
  | nil => intro b0 m hm; exact absurd hm (List.not_mem_nil m)
  | cons m' ms ih =>
    intro b0 m hm
    simp only [List.foldl_cons]
    rcases List.mem_cons.mp hm with rfl | hm
    · have h := foldl_boundsExtend_widens ms (boundsExtend b0 m.lat m.lng)
      exact ⟨le_trans h.1 (min_le_right _ _), le_trans (le_max_right _ _) h.2.1,
        le_trans h.2.2.1 (min_le_right _ _), le_trans (le_max_right _ _) h.2.2.2⟩
    · exact ih (boundsExtend b0 m'.lat m'.lng) m hm

/-- The feature-group bounds contain every member coordinate. -/
theorem boundsOfMarkers_contains (ms : List Marker) :
    ∀ m ∈ ms, (boundsOfMarkers ms).containsPt m.lat m.lng := by
  cases ms with
  | nil => intro m hm; exact absurd hm (List.not_mem_nil m)
  | cons m0 ms =>
    intro m hm
    rcases List.mem_cons.mp hm with rfl | hm
    · have h := foldl_boundsExtend_widens ms ⟨m.lat, m.lng, m.lat, m.lng⟩
      exact ⟨h.1, h.2.1, h.2.2.1, h.2.2.2⟩
    · exact mem_foldl_boundsExtend ms ⟨m0.lat, m0.lng, m0.lat, m0.lng⟩ m hm

/-- Padding with a nonnegative ratio keeps every contained point
contained. -/
theorem pad_containsPt {b : Bounds} {ratio : Rat} (hr : 0 ≤ ratio) {lat lng : Rat}
    (h : b.containsPt lat lng) : (b.pad ratio).containsPt lat lng := by
  have hh : 0 ≤ |b.neLat - b.swLat| * ratio := mul_nonneg (abs_nonneg _) hr
  have hw : 0 ≤ |b.neLng - b.swLng| * ratio := mul_nonneg (abs_nonneg _) hr
  obtain ⟨h1, h2, h3, h4⟩ := h
  exact ⟨by simp only [Bounds.pad]; linarith, by simp only [Bounds.pad]; linarith,
    by simp only [Bounds.pad]; linarith, by simp only [Bounds.pad]; linarith⟩

/-- C2: with an initialized map, the marker-replace operation leaves
exactly one result marker per restaurant regardless of the prior marker
count, never touches the search-center pin, and, when at least one
restaurant is given, fits the view to the padded (ratio 0.1) bounding
box of all result markers plus the pin, a box that contains every
result marker and the pin. -/
theorem addRestaurantMarkers_spec (st : MapState) (restaurants : List Restaurant)
    (hinit : st.mapInit = true) :
    ((addRestaurantMarkers st restaurants).markers.length = restaurants.length) ∧
    ((addRestaurantMarkers st restaurants).userMarker = st.userMarker) ∧
    (restaurants ≠ [] →
      ∃ b, (addRestaurantMarkers st restaurants).fittedBounds = some b ∧
        b = (boundsOfMarkers (restaurants.map createRestaurantMarker ++
              (match st.userMarker with | some m => [m] | none => []))).pad (1/10) ∧
        (∀ m ∈ (addRestaurantMarkers st restaurants).markers, b.containsPt m.lat m.lng) ∧
        (∀ m, st.userMarker = some m → b.containsPt m.lat m.lng)) := by
  obtain ⟨mi, mk, um, ul, ce, fb⟩ := st
  replace hinit : mi = true := hinit
  subst hinit
  by_cases hne : restaurants = []
  · subst hne
    simp [addRestaurantMarkers, clearMarkers]
  · have hlen : 0 < (restaurants.map createRestaurantMarker).length := by
      cases restaurants with
      | nil => exact absurd rfl hne
      | cons a l => simp
    cases um with
    | none =>
      simp only [addRestaurantMarkers, clearMarkers, Bool.not_true, List.nil_append,
        Bool.false_eq_true, if_false, gt_iff_lt, if_pos hlen, List.append_nil,
        if_pos hlen]
      refine ⟨by simp, by trivial, ?_⟩
      intro _
      refine ⟨_, rfl, rfl, ?_, ?_⟩
      · intro m hm
        apply pad_containsPt (by norm_num)
        apply boundsOfMarkers_contains
        simpa using hm
      · intro m hm
        exact absurd hm (by simp)
    | some pin =>
      have hlay : 0 < (restaurants.map createRestaurantMarker ++ [pin]).length := by
        simp
      simp only [addRestaurantMarkers, clearMarkers, Bool.not_true, List.nil_append,
        Bool.false_eq_true, if_false, gt_iff_lt, if_pos hlen, if_pos hlay]
      refine ⟨by simp, by trivial, ?_⟩
      intro _
      refine ⟨_, rfl, rfl, ?_, ?_⟩
      · intro m hm
        apply pad_containsPt (by norm_num)
        apply boundsOfMarkers_contains
        exact List.mem_append_left _ hm
      · intro m hm
        apply pad_containsPt (by norm_num)
        apply boundsOfMarkers_contains
        apply List.mem_append_right
        simp only [Option.some.injEq] at hm
        rw [hm]
        exact List.mem_singleton_self m

/-- Witness for C2 at a concrete state: two restaurants replace one
stale marker, the pin is kept, and the fitted box contains both markers
and the pin. -/
theorem addRestaurantMarkers_spec_witness :
    (1 : Rat) = 1 ∧
    ((addRestaurantMarkers
      ⟨true, [⟨0, 0, "stale"⟩], some ⟨37, -122, "Search Center"⟩, none, none, none⟩
      [⟨"1", "A", 38, -121, 4, "$$", 450⟩, ⟨"2", "B", 36, -123, 5, "$$$", 890⟩]).markers.length = 2) := by
  constructor
  · rfl
  · exact (addRestaurantMarkers_spec
      ⟨true, [⟨0, 0, "stale"⟩], some ⟨37, -122, "Search Center"⟩, none, none, none⟩
      [⟨"1", "A", 38, -121, 4, "$$", 450⟩, ⟨"2", "B", 36, -123, 5, "$$$", 890⟩] rfl).1

/-- C7: on every geolocation failure callback the state (and in
particular the search center) is unchanged, the descriptive message for
the failure cause is logged, and no coordinate is forwarded; and the
default-coordinate fallback of the unsupported branch fires only when no
search center exists yet. -/
theorem requestUserLocation_failure_spec :
    (∀ st : MapState, ∀ code : GeoErrCode,
      (requestUserLocation st (.failure code)).1 = st ∧
      geoErrMessage code ∈ (requestUserLocation st (.failure code)).2.logs ∧
      (requestUserLocation st (.failure code)).2.locationReadyCalls = []) ∧
    (∀ st : MapState,
      (requestUserLocation st .unsupported).2.locationReadyCalls ≠ [] →
      st.userLocation = none) := by
  constructor
  · intro st code
    refine ⟨rfl, ?_, rfl⟩
    simp [requestUserLocation]
  · intro st h
    by_cases hloc : st.userLocation = none
    · exact hloc
    · exfalso
      apply h
      simp [requestUserLocation, hloc]

/-- Witness for C7: a failure callback on a state holding a trip search
center leaves it untouched and logs the timeout message; the unsupported
branch on a state with no search center does emit the default
coordinate. -/
theorem requestUserLocation_failure_spec_witness :
    (requestUserLocation ⟨true, [], none, some (40, -74), none, none⟩
      (.failure .locTimeout)).1 = ⟨true, [], none, some (40, -74), none, none⟩ ∧
    (requestUserLocation ⟨true, [], none, none, none, none⟩
        .unsupported).2.locationReadyCalls ≠ [] ∧
    (⟨true, [], none, none, none, none⟩ : MapState).userLocation = none := by
  refine ⟨(requestUserLocation_failure_spec.1 _ .locTimeout).1, by decide, ?_⟩
  exact requestUserLocation_failure_spec.2 ⟨true, [], none, none, none, none⟩ (by decide)

/-- C5: the restaurant fetch always resolves, never rejecting to its
caller: on an unconfigured proxy and on any error of the upstream
round-trip (non-ok status or network failure) it resolves with the mock
table annotated with distances recomputed from the given coordinate,
entry by entry. -/
theorem fetchRestaurants_spec (yelpApiUrl : String)
    (dist : Rat → Rat → Rat → Rat → Rat) (mockTable : List Restaurant)
    (lat lng : Rat) (up : UpstreamResult) :
    (∃ rs, fetchRestaurants yelpApiUrl dist mockTable lat lng up = .ok rs) ∧
    (yelpApiUrl = "" →
      fetchRestaurants yelpApiUrl dist mockTable lat lng up =
        .ok (getMockRestaurants dist mockTable lat lng)) ∧
    (∀ e, fetchFromProxy up = .error e →
      fetchRestaurants yelpApiUrl dist mockTable lat lng up =
        .ok (getMockRestaurants dist mockTable lat lng)) ∧
    ((getMockRestaurants dist mockTable lat lng).length = mockTable.length) ∧
    (∀ i, ∀ h2 : i < mockTable.length,
      (getMockRestaurants dist mockTable lat lng).get
          ⟨i, by rw [getMockRestaurants, List.length_map]; exact h2⟩ =
        { mockTable.get ⟨i, h2⟩ with
            distance := jsRound (dist lat lng (mockTable.get ⟨i, h2⟩).lat
              (mockTable.get ⟨i, h2⟩).lng) }) := by
  refine ⟨?_, ?_, ?_, ?_, ?_⟩
  · by_cases hurl : yelpApiUrl = ""
    · exact ⟨getMockRestaurants dist mockTable lat lng, by simp [fetchRestaurants, hurl]⟩
    · cases hup : fetchFromProxy up with
      | ok rs => exact ⟨rs, by simp [fetchRestaurants, hurl, hup]⟩
      | error e =>
        exact ⟨getMockRestaurants dist mockTable lat lng,
          by simp [fetchRestaurants, hurl, hup]⟩
  · intro hurl
    simp [fetchRestaurants, hurl]
  · intro e he
    by_cases hurl : yelpApiUrl = ""
    · simp [fetchRestaurants, hurl]
    · simp [fetchRestaurants, hurl, he]
  · simp [getMockRestaurants]
  · intro i h2
    simp [getMockRestaurants]

/-- Witness for C5: with the proxy configured and the upstream returning
a 500 status, the fetch resolves with the re-annotated mock table. -/
theorem fetchRestaurants_spec_witness :
    fetchFromProxy (.httpError 500) = .error "Yelp API error: 500" ∧
    fetchRestaurants "https://api.yelp.com/v3/businesses/search"
        (fun _ _ _ _ => 0) [Restaurant.mk "1" "A" 1 2 4 "$$" 450] 37 (-122)
        (.httpError 500) =
      .ok (getMockRestaurants (fun _ _ _ _ => 0)
        [Restaurant.mk "1" "A" 1 2 4 "$$" 450] 37 (-122)) := by
  refine ⟨rfl, ?_⟩
  exact (fetchRestaurants_spec "https://api.yelp.com/v3/businesses/search"
    (fun _ _ _ _ => 0) [Restaurant.mk "1" "A" 1 2 4 "$$" 450] 37 (-122)
    (.httpError 500)).2.2.1 "Yelp API error: 500" rfl

/-- Erasing a key removes every binding of that key. -/
theorem cacheLookup_erase_self (c : Cache) (k : YelpParams) :
    cacheLookup (cacheErase c k) k = none := by
  induction c with
  | nil => rfl
  | cons p rest ih =>
    obtain ⟨pk, pe⟩ := p
    by_cases hk : pk = k
    · simpa [cacheErase, hk] using ih
    · simp [cacheErase, hk, cacheLookup, ih]

/-- A binding that survives an erase was present before it. -/
theorem cacheLookup_erase (c : Cache) (k k2 : YelpParams) (e : CacheEntry)
    (h : cacheLookup (cacheErase c k) k2 = some e) : cacheLookup c k2 = some e := by
  by_cases hkk : k2 = k
  · subst hkk
    rw [cacheLookup_erase_self] at h
    exact absurd h (by simp)
  · induction c with
    | nil => simp [cacheErase, cacheLookup] at h
    | cons p rest ih =>
      obtain ⟨pk, pe⟩ := p
      by_cases hk : pk = k
      · have h2 : cacheLookup (cacheErase rest k) k2 = some e := by
          simpa [cacheErase, hk] using h
        have hpk2 : ¬ pk = k2 := by
          rw [hk]
          exact fun hx => hkk hx.symm
        simpa [cacheLookup, hpk2] using ih h2
      · by_cases hpk2 : pk = k2
        · have : some pe = some e := by
            simpa [cacheErase, hk, cacheLookup, hpk2, hkk] using h
          simpa [cacheLookup, hpk2] using this
        · have h2 : cacheLookup (cacheErase rest k) k2 = some e := by
            simpa [cacheErase, hk, cacheLookup, hpk2] using h
          simpa [cacheLookup, hpk2] using ih h2

/-- The cache a handler run ends with, when the upstream outcome is not
a success, holds no binding the starting cache did not hold. -/
theorem yelpHandler_error_cache_sub (ttl : Int) (c : Cache) (now : Int)
    (body : YelpRequestBody) (up : YelpUpstream) (apiKeyConfigured : Bool)
    (hup : ∀ d, up ≠ YelpUpstream.ok d) :
    ∀ k2 e, cacheLookup (yelpSearchHandler apiKeyConfigured ttl c now body up).2 k2 = some e →
      cacheLookup c k2 = some e := by
  intro k2 e h
  cases apiKeyConfigured with
  | false => simpa [yelpSearchHandler] using h
  | true =>
    cases hv : yelpValidate body with
    | error err =>
      obtain ⟨s, m⟩ := err
      simpa [yelpSearchHandler, hv] using h
    | ok params =>
      have hcache2 :
          (yelpSearchHandler true ttl c now body up).2 = (getCachedResponse c now params).2 := by
        cases up with
        | ok d => exact absurd rfl (hup d)
        | httpError s =>
          simp only [yelpSearchHandler, hv, Bool.not_true, Bool.false_eq_true, if_false]
          cases hl : (getCachedResponse c now params).1 with
          | none => rfl
          | some data =>
            by_cases ht : data.truthy
            · simp [hl, ht]
            · simp [hl, ht]
        | networkError =>
          simp only [yelpSearchHandler, hv, Bool.not_true, Bool.false_eq_true, if_false]
          cases hl : (getCachedResponse c now params).1 with
          | none => rfl
          | some data =>
            by_cases ht : data.truthy
            · simp [hl, ht]
            · simp [hl, ht]
      rw [hcache2] at h
      cases hl : cacheLookup c params with
      | none =>
        simp only [getCachedResponse, hl] at h
        exact h
      | some ce =>
        by_cases hlt : ce.expiresAt < now
        · simp only [getCachedResponse, hl, if_pos hlt] at h
          exact cacheLookup_erase c params k2 e h
        · simp only [getCachedResponse, hl, if_neg hlt] at h
          exact h

/-- C10: the cache never serves a stale or failed result.  A lookup
returns data only from a binding whose expiry is not in the past;
a binding whose expiry has passed is deleted by the lookup; a handler
run whose upstream outcome is an error adds nothing to the cache; and
after such a run on a previously uncached request, the identical request
is again answered by its own upstream outcome rather than by a cached
error. -/
theorem yelpCache_spec :
    (∀ (c : Cache) (now : Int) (k : YelpParams) (v : JsValue),
      (getCachedResponse c now k).1 = some v →
      ∃ e, cacheLookup c k = some e ∧ now ≤ e.expiresAt ∧ e.data = v) ∧
    (∀ (c : Cache) (now : Int) (k : YelpParams) (e : CacheEntry),
      cacheLookup c k = some e → e.expiresAt < now →
      getCachedResponse c now k = (none, cacheErase c k)) ∧
    (∀ (ttl : Int) (c : Cache) (now : Int) (body : YelpRequestBody) (up : YelpUpstream)
      (apiKeyConfigured : Bool), (∀ d, up ≠ YelpUpstream.ok d) →
      ∀ k2 e,
        cacheLookup (yelpSearchHandler apiKeyConfigured ttl c now body up).2 k2 = some e →
        cacheLookup c k2 = some e) ∧
    (∀ (ttl : Int) (c : Cache) (now : Int) (body : YelpRequestBody) (up1 : YelpUpstream)
      (params : YelpParams),
      yelpValidate body = .ok params →
      cacheLookup c params = none →
      (∀ d, up1 ≠ YelpUpstream.ok d) →
      (yelpSearchHandler true ttl c now body up1).1 = upstreamToResp up1 ∧
      (yelpSearchHandler true ttl c now body up1).2 = c ∧
      ∀ (now2 : Int) (up2 : YelpUpstream),
        (yelpSearchHandler true ttl (yelpSearchHandler true ttl c now body up1).2 now2
          body up2).1 = upstreamToResp up2) := by
  refine ⟨?_, ?_, yelpHandler_error_cache_sub, ?_⟩
  · intro c now k v h
    cases hl : cacheLookup c k with
    | none =>
      simp only [getCachedResponse, hl] at h
      exact absurd h (by simp)
    | some e =>
      by_cases hlt : e.expiresAt < now
      · simp only [getCachedResponse, hl, if_pos hlt] at h
        exact absurd h (by simp)
      · simp only [getCachedResponse, hl, if_neg hlt] at h
        simp only [Option.some.injEq] at h
        exact ⟨e, rfl, by omega, h⟩
  · intro c now k e hl hlt
    simp only [getCachedResponse, hl, if_pos hlt]
  · intro ttl c now body up1 params hv hl hup
    have hrun : ∀ (n : Int) (u : YelpUpstream),
        yelpSearchHandler true ttl c n body u =
          (upstreamToResp u,
            match u with
            | .ok d => setCachedResponse c n ttl params d
            | _ => c) := by
      intro n u
      cases u with
      | ok d => simp [yelpSearchHandler, hv, getCachedResponse, hl, upstreamToResp]
      | httpError s => simp [yelpSearchHandler, hv, getCachedResponse, hl, upstreamToResp]
      | networkError => simp [yelpSearchHandler, hv, getCachedResponse, hl, upstreamToResp]
    have hc1 : (yelpSearchHandler true ttl c now body up1).2 = c := by
      rw [hrun now up1]
      cases up1 with
      | ok d => exact absurd rfl (hup d)
      | httpError s => rfl
      | networkError => rfl
    refine ⟨by rw [hrun now up1], hc1, ?_⟩
    intro now2 up2
    rw [hc1, hrun now2 up2]

/-- Witness for C10: the handler conjuncts applied at a concrete
empty-cache state and a network error: the first run returns the
upstream 500 error and leaves the cache empty, and the identical second
request is again answered by its upstream outcome. -/
theorem yelpCache_spec_witness :
    (yelpSearchHandler true 300000 [] 0
      ⟨.num 37, .num (-122), .undef, .undef, .undef, .undef⟩ .networkError).1 =
        upstreamToResp .networkError ∧
    (yelpSearchHandler true 300000 [] 0
      ⟨.num 37, .num (-122), .undef, .undef, .undef, .undef⟩ .networkError).2 = [] := by
  have h := yelpCache_spec.2.2.2 300000 [] 0
    ⟨.num 37, .num (-122), .undef, .undef, .undef, .undef⟩ .networkError
    ⟨37, -122, 8047, 20, .str "restaurants,bars,breweries,nightlife", .str "rating"⟩
    (by rfl) (by rfl) (by intro d h; exact YelpUpstream.noConfusion h)
  exact ⟨h.1, h.2.1⟩

/-- C9: a syntactically valid request carrying latitude 0 (or longitude
0) with the other coordinate finite is rejected with 400 and the
required-fields error body, because presence is tested by truthiness. -/
theorem yelpHandler_zero_coordinate_rejected :
    (yelpSearchHandler true 300000 [] 0
      ⟨.num 0, .num (-122), .undef, .undef, .undef, .undef⟩ .networkError).1 =
      .err 400 "latitude and longitude are required" ∧
    (yelpSearchHandler true 300000 [] 0
      ⟨.num 37, .num 0, .undef, .undef, .undef, .undef⟩ .networkError).1 =
      .err 400 "latitude and longitude are required" := by
  constructor <;> decide

/-- With truthy coordinates that convert to finite numbers, validation
reduces to the radius and limit guards followed by the defaulted
parameter record. -/
theorem yelpValidate_good_coords (body : YelpRequestBody) (a b : Rat)
    (hla : body.latitude.toNumber = some a) (hta : body.latitude.truthy = true)
    (hlb : body.longitude.toNumber = some b) (htb : body.longitude.truthy = true) :
    yelpValidate body =
      (if (body.radius != JsValue.undef) && radiusInvalid body.radius.toNumber then
        .error (400, "radius must be a number between 1 and 40000")
      else if (body.limit != JsValue.undef) && limitInvalid body.limit.toNumber then
        .error (400, "limit must be a positive number")
      else .ok { latitudeValue := a
                 longitudeValue := b
                 radiusValue :=
                   if body.radius != JsValue.undef then
                     body.radius.toNumber.getD DEFAULT_SEARCH_RADIUS
                   else DEFAULT_SEARCH_RADIUS
                 limitValue :=
                   if body.limit != JsValue.undef then
                     body.limit.toNumber.getD DEFAULT_SEARCH_LIMIT
                   else DEFAULT_SEARCH_LIMIT
                 categories :=
                   if body.categories.truthy then body.categories
                   else .str "restaurants,bars,breweries,nightlife"
                 sortBy :=
                   if body.sortBy.truthy then body.sortBy
                   else .str "rating" }) := by
  simp [yelpValidate, hla, hlb, hta, htb]

/-- C6: with the API key configured, a request missing latitude is
rejected with 400 and the required-fields error body; for a well-formed
coordinate pair a supplied radius is accepted exactly when it converts
to a finite number in (0, 40000], with 40001 rejected by the 400 radius
error; a supplied limit is accepted exactly when it converts to a finite
positive number; and any accepted request has latitude and longitude
that converted to finite numbers. -/
theorem yelpValidate_spec :
    (∀ body : YelpRequestBody, body.latitude = .undef →
      ∀ (ttl : Int) (c : Cache) (now : Int) (up : YelpUpstream),
        (yelpSearchHandler true ttl c now body up).1 =
          .err 400 "latitude and longitude are required") ∧
    (∀ body : YelpRequestBody, ∀ a b : Rat,
      body.latitude.toNumber = some a → body.latitude.truthy = true →
      body.longitude.toNumber = some b → body.longitude.truthy = true →
      body.limit = .undef → body.radius ≠ .undef →
      ((∃ p, yelpValidate body = .ok p) ↔
        ∃ q, body.radius.toNumber = some q ∧ 0 < q ∧ q ≤ 40000)) ∧
    (∀ body : YelpRequestBody, ∀ a b : Rat,
      body.latitude.toNumber = some a → body.latitude.truthy = true →
      body.longitude.toNumber = some b → body.longitude.truthy = true →
      body.radius = .num 40001 →
      yelpValidate body = .error (400, "radius must be a number between 1 and 40000")) ∧
    (∀ body : YelpRequestBody, ∀ a b : Rat,
      body.latitude.toNumber = some a → body.latitude.truthy = true →
      body.longitude.toNumber = some b → body.longitude.truthy = true →
      body.radius = .undef → body.limit ≠ .undef →
      ((∃ p, yelpValidate body = .ok p) ↔
        ∃ q, body.limit.toNumber = some q ∧ 0 < q)) ∧
    (∀ (body : YelpRequestBody) (p : YelpParams), yelpValidate body = .ok p →
      body.latitude.toNumber = some p.latitudeValue ∧
      body.longitude.toNumber = some p.longitudeValue) := by
  refine ⟨?_, ?_, ?_, ?_, ?_⟩
  · intro body hlat ttl c now up
    have hv : yelpValidate body = .error (400, "latitude and longitude are required") := by
      simp [yelpValidate, hlat, JsValue.truthy]
    simp [yelpSearchHandler, hv]
  · intro body a b hla hta hlb htb hlim hrad
    rw [yelpValidate_good_coords body a b hla hta hlb htb]
    have hr : (body.radius != JsValue.undef) = true := bne_iff_ne.mpr hrad
    rw [hlim]
    simp only [hr, Bool.true_and, bne_self_eq_false, Bool.false_and, Bool.false_eq_true,
      if_false]
    constructor
    · rintro ⟨p, hp⟩
      by_cases hri : radiusInvalid body.radius.toNumber = true
      · rw [if_pos hri] at hp
        exact absurd hp (by simp)
      · cases hq : body.radius.toNumber with
        | none => exact absurd (by simp [radiusInvalid, hq]) hri
        | some q =>
          refine ⟨q, rfl, ?_, ?_⟩
          · simp [radiusInvalid, hq, not_or] at hri
            linarith [hri.1]
          · simp [radiusInvalid, hq, not_or] at hri
            linarith [hri.2]
    · rintro ⟨q, hq, h0, h40⟩
      have hri : radiusInvalid body.radius.toNumber = false := by
        simp [radiusInvalid, hq, not_or]
        constructor <;> linarith
      rw [hri]
      simp
  · intro body a b hla hta hlb htb hrad
    rw [yelpValidate_good_coords body a b hla hta hlb htb]
    have hri : radiusInvalid body.radius.toNumber = true := by
      rw [hrad]
      simp [radiusInvalid, JsValue.toNumber]
      norm_num
    have hr : (body.radius != JsValue.undef) = true := by
      rw [hrad]
      decide
    rw [hr, hri]
    simp
  · intro body a b hla hta hlb htb hrad hlim
    rw [yelpValidate_good_coords body a b hla hta hlb htb]
    have hl : (body.limit != JsValue.undef) = true := bne_iff_ne.mpr hlim
    rw [hrad]
    simp only [bne_self_eq_false, Bool.false_and, Bool.false_eq_true, if_false, hl,
      Bool.true_and]
    constructor
    · rintro ⟨p, hp⟩
      by_cases hli : limitInvalid body.limit.toNumber = true
      · rw [if_pos hli] at hp
        exact absurd hp (by simp)
      · cases hq : body.limit.toNumber with
        | none => exact absurd (by simp [limitInvalid, hq]) hli
        | some q =>
          refine ⟨q, rfl, ?_⟩
          simp [limitInvalid, hq] at hli
          linarith
    · rintro ⟨q, hq, h0⟩
      have hli : limitInvalid body.limit.toNumber = false := by
        simp [limitInvalid, hq]
        linarith
      rw [hli]
      simp
  · intro body p hp
    by_cases ht : (body.latitude.truthy && body.longitude.truthy) = true
    · cases hla : body.latitude.toNumber with
      | none =>
        rw [yelpValidate] at hp
        simp only [ht, Bool.not_true, Bool.false_eq_true, if_false, hla] at hp
        cases hlb : body.longitude.toNumber <;> simp [hlb] at hp
      | some a =>
        cases hlb : body.longitude.toNumber with
        | none =>
          rw [yelpValidate] at hp
          simp only [ht, Bool.not_true, Bool.false_eq_true, if_false, hla, hlb] at hp
          exact absurd hp (by simp)
        | some b =>
          rw [yelpValidate] at hp
          simp only [ht, Bool.not_true, Bool.false_eq_true, if_false, hla, hlb] at hp
          by_cases h1 : ((body.radius != JsValue.undef) &&
              radiusInvalid body.radius.toNumber) = true
          · rw [if_pos h1] at hp
            exact absurd hp (by simp)
          · rw [if_neg h1] at hp
            by_cases h2 : ((body.limit != JsValue.undef) &&
                limitInvalid body.limit.toNumber) = true
            · rw [if_pos h2] at hp
              exact absurd hp (by simp)
            · rw [if_neg h2] at hp
              simp only [Except.ok.injEq] at hp
              rw [← hp]
              exact ⟨rfl, rfl⟩
    · rw [yelpValidate] at hp
      have hnt : (!(body.latitude.truthy && body.longitude.truthy)) = true := by
        simp only [Bool.not_eq_true] at ht ⊢
        simp [ht]
      rw [if_pos hnt] at hp
      exact absurd hp (by simp)

/-- Witness for C6: a request with radius 40000 and good coordinates is
accepted, and a request missing latitude is answered with the 400
required-fields error. -/
theorem yelpValidate_spec_witness :
    (∃ p, yelpValidate ⟨.num 37, .num (-122), .num 40000, .undef, .undef, .undef⟩ = .ok p) ∧
    (yelpSearchHandler true 300000 [] 0
      ⟨.undef, .num (-122), .undef, .undef, .undef, .undef⟩ .networkError).1 =
      .err 400 "latitude and longitude are required" := by
  constructor
  · exact (yelpValidate_spec.2.1 ⟨.num 37, .num (-122), .num 40000, .undef, .undef, .undef⟩
      37 (-122) rfl (by decide) rfl (by decide) rfl (by decide)).mpr
      ⟨40000, rfl, by norm_num, by norm_num⟩
  · exact yelpValidate_spec.1 ⟨.undef, .num (-122), .undef, .undef, .undef, .undef⟩ rfl
      300000 [] 0 .networkError

/-- Witness for the amended C8 theorem at concrete inputs: a missing
travel-log container alone does not make toggleView throw, while a
missing world container from TRAVEL_LOG throws with the view
unchanged. -/
theorem toggleView_missing_container_behavior_witness :
    (toggleView .world ⟨some "flex", some "none", none, some ""⟩).threw = false ∧
    (toggleView .travelLog ⟨none, some "none", some "flex", some ""⟩).threw = true ∧
    (toggleView .travelLog ⟨none, some "none", some "flex", some ""⟩).view = View.travelLog := by
  refine ⟨toggleView_missing_container_behavior.1 .world "flex" "none" "", ?_, ?_⟩
  · exact (toggleView_missing_container_behavior.2.1
      ⟨none, some "none", some "flex", some ""⟩ rfl).1
  · exact (toggleView_missing_container_behavior.2.1
      ⟨none, some "none", some "flex", some ""⟩ rfl).2

end OnTheGo
